import Mathlib

/-!
Verification of the Protein-Analyzer record-field extractor and its UI cycle.

The development shallowly embeds the Python functions of `ASG01.py` and
`app.py`.  A text line is a `List Char`; `splitlines()` output is a
`List Line`.  Python's `str.split()` (whitespace mode), `str.split(sep)`,
`str.strip()`, `str.startswith(p)` and `int(...)` are embedded as
executable functions below.  Python `dict` insertion/overwrite is embedded
as an association list where overwriting keeps the original position and a
fresh key is appended at the end.  Exceptions (IndexError from `[1]` or
`[-1]`, ValueError from `int(...)`) are embedded with `Except`.
-/

set_option maxRecDepth 4000

namespace ProteinAnalyzer

/-- A single text line (character list, the result of one `splitlines` entry). -/
abbrev Line := List Char

/-- Python whitespace for `str.split()` / `str.strip()` (space, tab, LF, CR, VT, FF). -/
def isPyWs (c : Char) : Bool :=
  c = ' ' || c = '\t' || c = '\n' || c = '\r' || c = '\x0b' || c = '\x0c'

/-- Accumulator loop for whitespace splitting: groups of non-whitespace chars. -/
def pySplitWsAux : List Char → List Char → List Line
  | [], acc => if acc = [] then [] else [acc.reverse]
  | c :: cs, acc =>
    if isPyWs c then
      if acc = [] then pySplitWsAux cs [] else acc.reverse :: pySplitWsAux cs []
    else pySplitWsAux cs (c :: acc)

/-- Python `s.split()` with no separator: split on whitespace runs, no empty fields. -/
def pySplitWs (s : Line) : List Line := pySplitWsAux s []

/-- Python `s.strip()`: drop leading and trailing whitespace. -/
def pyStrip (s : Line) : Line :=
  ((s.dropWhile isPyWs).reverse.dropWhile isPyWs).reverse

/-- `begins p l` embeds Python `l.startswith(p)`. -/
def begins : List Char → List Char → Bool
  | [], _ => true
  | _ :: _, [] => false
  | p :: ps, c :: cs => if p = c then begins ps cs else false

/-- Fuel-driven scanner for Python `s.split(sep)` (keeps empty fields, scans
leftmost-first, non-overlapping).  The fuel is an upper bound on the number
of steps; `pySplit` always supplies enough. -/
def pySplitFuel (sep : List Char) : Nat → List Char → List Char → List Line
  | 0, acc, s => [acc.reverse ++ s]
  | _ + 1, acc, [] => [acc.reverse]
  | fuel + 1, acc, c :: cs =>
    if sep ≠ [] ∧ begins sep (c :: cs) = true then
      acc.reverse :: pySplitFuel sep fuel [] ((c :: cs).drop sep.length)
    else
      pySplitFuel sep fuel (c :: acc) cs

/-- Python `s.split(sep)` for a non-empty separator. -/
def pySplit (sep s : List Char) : List Line :=
  pySplitFuel sep (s.length + 1) [] s

/-- Digit-string value; `none` on any non-digit character. -/
def digitsValAux : List Char → Nat → Option Nat
  | [], acc => some acc
  | c :: cs, acc =>
    if c.isDigit then digitsValAux cs (acc * 10 + (c.toNat - 48)) else none

/-- Python `int(s)` on the inputs this program meets: optional surrounding
whitespace, optional sign, then decimal digits; `none` embeds `ValueError`.
(Underscore separators and non-ASCII digits are not modelled.) -/
def pyInt? (s : Line) : Option Int :=
  match pyStrip s with
  | [] => none
  | '+' :: rest =>
    if rest = [] then none else (digitsValAux rest 0).map Int.ofNat
  | '-' :: rest =>
    if rest = [] then none else (digitsValAux rest 0).map (fun n => -(n : Int))
  | l => (digitsValAux l 0).map Int.ofNat

/-- Python `" ".join(...)`. -/
def joinSpace (l : List Line) : Line := List.intercalate [' '] l

/-- A value stored in the `protein_data` dict: a string, an `int(...)` result,
or the list of PTM strings. -/
inductive Value where
  | str (s : Line)
  | int (n : Int)
  | strList (l : List Line)
deriving DecidableEq

/-- The `protein_data` dict: association list, insertion-ordered. -/
abbrev Record := List (String × Value)

/-- Python dict store `d[k] = v`: overwrite in place if the key exists,
append otherwise. -/
def setField : Record → String → Value → Record
  | [], k, v => [(k, v)]
  | (k', v') :: rest, k, v =>
    if k' = k then (k, v) :: rest else (k', v') :: setField rest k v

/-- Python dict read `d.get(k)`. -/
def getVal : Record → String → Option Value
  | [], _ => none
  | (k', v') :: rest, k => if k' = k then some v' else getVal rest k

/-- The runtime exceptions the extractor can raise. -/
inductive ParseErr where
  | indexError
  | valueError
deriving DecidableEq

/-! The line-prefix patterns and separators of `get_protein_data`,
verbatim from the source. -/

def pfxID : Line := "ID".toList
def pfxSQ : Line := "SQ".toList
def pfxDE : Line := "DE   RecName: Full=".toList
def pfxSUPFAM : Line := "DR   SUPFAM".toList
def pfxFT : Line := "FT   MOD_RES".toList
def pfxCC : Line := "CC   -!- SUBCELLULAR LOCATION:".toList
def pfxReactome : Line := "DR   Reactome".toList
def pfxMIM : Line := "DR   MIM".toList
def pfxPDB : Line := "DR   PDB".toList
def pfxAFDB : Line := "DR   AlphaFoldDB".toList
def sepSemi : Line := ";".toList
def sepFull : Line := "Full=".toList

/-- One iteration of the `for i, line in enumerate(lines)` body of
`get_protein_data`: either an exception, or the dict update the iteration
performs.  `v2 = true` adds the `DR   PDB` / `DR   AlphaFoldDB` branches of
the `app.py` variant; `v2 = false` is the `ASG01.py` variant. -/
def lineStepV (v2 : Bool) (lines : List Line) (i : Nat) (line : Line) :
    Except ParseErr (Record → Record) :=
  if begins pfxID line then
    let fields := pySplitWs line
    Except.ok (fun r => setField r "Name"
      (Value.str (if 2 ≤ fields.length then joinSpace fields.tail else "Not available".toList)))
  else if begins pfxSQ line ∧ i + 1 < lines.length then
    let wline := lines.getD (i + 1) []
    match (pySplitWs wline).getLast? with
    | none => Except.error ParseErr.indexError
    | some w => Except.ok (fun r => setField r "Weight" (Value.str w))
  else if begins pfxDE line then
    match (pySplit sepFull line).get? 1 with
    | none => Except.error ParseErr.indexError
    | some after =>
      Except.ok (fun r => setField r "Function"
        (Value.str ((pySplit sepSemi after).headD [])))
  else if begins pfxSUPFAM line then
    match (pySplit sepSemi line).get? 1 with
    | none => Except.error ParseErr.indexError
    | some s => Except.ok (fun r => setField r "Structure" (Value.str s))
  else if begins pfxFT line then
    let parts := pySplitWs line
    let lengthUpd : Except ParseErr (Record → Record) :=
      if 3 ≤ parts.length then
        match pyInt? (parts.getD 2 []) with
        | none => Except.error ParseErr.valueError
        | some n => Except.ok (fun r => setField r "Length" (Value.int n))
      else Except.ok id
    match lengthUpd with
    | Except.error e => Except.error e
    | Except.ok f =>
      let ptms := (pySplit sepSemi line).tail
      if ptms ≠ [] then
        Except.ok (fun r => setField (f r) "PTMs" (Value.strList (ptms.map pyStrip)))
      else Except.ok f
  else if begins pfxCC line then
    match (pySplit pfxCC line).get? 1 with
    | none => Except.error ParseErr.indexError
    | some s => Except.ok (fun r => setField r "Subcellular Location" (Value.str (pyStrip s)))
  else if begins pfxReactome line then
    match (pySplit sepSemi line).get? 1 with
    | none => Except.error ParseErr.indexError
    | some s => Except.ok (fun r => setField r "Pathway" (Value.str s))
  else if begins pfxMIM line then
    match (pySplit sepSemi line).get? 1 with
    | none => Except.error ParseErr.indexError
    | some s => Except.ok (fun r => setField r "Disease" (Value.str s))
  else if v2 = true ∧ begins pfxPDB line then
    match (pySplit sepSemi line).get? 1 with
    | none => Except.error ParseErr.indexError
    | some s => Except.ok (fun r => setField r "PDB_ID" (Value.str (pyStrip s)))
  else if v2 = true ∧ begins pfxAFDB line then
    match (pySplit sepSemi line).get? 1 with
    | none => Except.error ParseErr.indexError
    | some s => Except.ok (fun r => setField r "AlphaFold_ID" (Value.str (pyStrip s)))
  else Except.ok id

/-- The extractor loop over the remaining lines, starting at index `i`;
an exception aborts the whole call. -/
def runFromV (v2 : Bool) (lines : List Line) : Nat → List Line → Record → Except ParseErr Record
  | _, [], r => Except.ok r
  | i, line :: rest, r =>
    match lineStepV v2 lines i line with
    | Except.error e => Except.error e
    | Except.ok f => runFromV v2 lines (i + 1) rest (f r)

/-- `get_protein_data` of `ASG01.py`, after the HTTP gate: scan the body
lines and build the record, starting from `{"ID": uniprot_id}`. -/
def get_protein_data (uid : Line) (lines : List Line) : Except ParseErr Record :=
  runFromV false lines 0 lines [("ID", Value.str uid)]

/-- `get_protein_data` of `app.py` (second variant, with the `DR   PDB` and
`DR   AlphaFoldDB` branches), after the HTTP gate. -/
def get_protein_data2 (uid : Line) (lines : List Line) : Except ParseErr Record :=
  runFromV true lines 0 lines [("ID", Value.str uid)]

/-! ### Basic lemmas about the embedded primitives -/

theorem begins_compat : ∀ (l p q : List Char), begins p l = true → begins q l = true →
    begins p q = true ∨ begins q p = true
  | _, [], _, _, _ => Or.inl rfl
  | _, _ :: _, [], _, _ => Or.inr rfl
  | [], _ :: _, _ :: _, h, _ => by simp [begins] at h
  | c :: cs, a :: as, b :: bs, h1, h2 => by
    simp only [begins] at h1 h2 ⊢
    by_cases hac : a = c
    · by_cases hbc : b = c
      · subst hac; subst hbc
        simp only [if_pos rfl] at h1 h2 ⊢
        exact begins_compat cs as bs h1 h2
      · rw [if_neg hbc] at h2; exact absurd h2 (by simp)
    · rw [if_neg hac] at h1; exact absurd h1 (by simp)

/-- If `p` is a prefix of `l` and the patterns `p` and `q` are incompatible
(neither is a prefix of the other), then `q` is not a prefix of `l`. -/
theorem begins_discrim {p l : List Char} (q : List Char) (h : begins p l = true)
    (h1 : begins q p = false) (h2 : begins p q = false) : begins q l = false := by
  cases hql : begins q l with
  | false => rfl
  | true =>
    rcases begins_compat l p q h hql with hpq | hqp
    · rw [hpq] at h2; exact absurd h2 (by simp)
    · rw [hqp] at h1; exact absurd h1 (by simp)

theorem getVal_setField_self (r : Record) (k : String) (v : Value) :
    getVal (setField r k v) k = some v := by
  induction r with
  | nil => simp [setField, getVal]
  | cons p rest ih =>
    obtain ⟨k', v'⟩ := p
    by_cases h : k' = k
    · simp [setField, getVal, h]
    · simp [setField, getVal, h, ih]

theorem getVal_setField_ne (r : Record) {k k' : String} (v : Value) (h : k' ≠ k) :
    getVal (setField r k' v) k = getVal r k := by
  induction r with
  | nil => simp [setField, getVal, h]
  | cons p rest ih =>
    obtain ⟨a, b⟩ := p
    by_cases ha : a = k'
    · simp [setField, getVal, ha, h]
    · by_cases hak : a = k
      · simp [setField, getVal, ha, hak, h, Ne.symm h]
      · simp [setField, getVal, ha, hak, h, Ne.symm h, ih]

theorem runFromV_append_ok {v2 : Bool} {lines : List Line} :
    ∀ {a : List Line} (b : List Line) {i : Nat} {r r' : Record},
      runFromV v2 lines i a r = Except.ok r' →
      runFromV v2 lines i (a ++ b) r = runFromV v2 lines (i + a.length) b r' := by
  intro a
  induction a with
  | nil =>
    intro b i r r' h
    simp only [runFromV] at h
    cases h
    simp [runFromV]
  | cons line rest ih =>
    intro b i r r' h
    simp only [runFromV, List.cons_append] at h ⊢
    cases hs : lineStepV v2 lines i line with
    | error e => simp only [hs] at h; simp at h
    | ok f =>
      simp only [hs] at h ⊢
      have := ih b h
      simp only [List.append_eq, List.length_cons] at this ⊢
      rw [this]
      have harith : i + (rest.length + 1) = i + 1 + rest.length := by omega
      rw [harith]

theorem runFromV_append_error {v2 : Bool} {lines : List Line} :
    ∀ {a : List Line} (b : List Line) {i : Nat} {r : Record} {e : ParseErr},
      runFromV v2 lines i a r = Except.error e →
      runFromV v2 lines i (a ++ b) r = Except.error e := by
  intro a
  induction a with
  | nil => intro b i r e h; simp [runFromV] at h
  | cons line rest ih =>
    intro b i r e h
    simp only [runFromV, List.cons_append] at h ⊢
    cases hs : lineStepV v2 lines i line with
    | error e' => simp only [hs] at h ⊢; exact h
    | ok f => simp only [hs] at h ⊢; exact ih b h

theorem getD_append_middle : ∀ (pre : List Line) (a b : Line) (post : List Line),
    (pre ++ a :: b :: post).getD (pre.length + 1) [] = b := by
  intro pre a b post
  induction pre with
  | nil => simp [List.getD]
  | cons c cs ih => simpa [List.getD] using ih

/-! ### Branch-reduction equations for `lineStepV`

Each lemma reduces `lineStepV` to the body of one branch of the
`if/elif` chain, under the hypotheses that all earlier conditions fail
and the branch's own condition holds. -/

theorem lineStepV_eq_id {v2 lines i line}
    (h : begins pfxID line = true) :
    lineStepV v2 lines i line = Except.ok (fun r => setField r "Name"
      (Value.str (if 2 ≤ (pySplitWs line).length then joinSpace (pySplitWs line).tail
                  else "Not available".toList))) := by
  unfold lineStepV
  rw [if_pos h]

theorem lineStepV_eq_sq {v2 lines i line}
    (n1 : begins pfxID line = false)
    (h : begins pfxSQ line = true) (hg : i + 1 < lines.length) :
    lineStepV v2 lines i line =
      match (pySplitWs (lines.getD (i + 1) [])).getLast? with
      | none => Except.error ParseErr.indexError
      | some w => Except.ok (fun r => setField r "Weight" (Value.str w)) := by
  unfold lineStepV
  rw [if_neg (by simp [n1]), if_pos ⟨h, hg⟩]

theorem lineStepV_eq_de {v2 lines i line}
    (n1 : begins pfxID line = false)
    (n2 : ¬(begins pfxSQ line = true ∧ i + 1 < lines.length))
    (h : begins pfxDE line = true) :
    lineStepV v2 lines i line =
      match (pySplit sepFull line).get? 1 with
      | none => Except.error ParseErr.indexError
      | some after =>
        Except.ok (fun r => setField r "Function"
          (Value.str ((pySplit sepSemi after).headD []))) := by
  unfold lineStepV
  rw [if_neg (by simp [n1]), if_neg n2, if_pos h]

theorem lineStepV_eq_supfam {v2 lines i line}
    (n1 : begins pfxID line = false)
    (n2 : ¬(begins pfxSQ line = true ∧ i + 1 < lines.length))
    (n3 : begins pfxDE line = false)
    (h : begins pfxSUPFAM line = true) :
    lineStepV v2 lines i line =
      match (pySplit sepSemi line).get? 1 with
      | none => Except.error ParseErr.indexError
      | some s => Except.ok (fun r => setField r "Structure" (Value.str s)) := by
  unfold lineStepV
  rw [if_neg (by simp [n1]), if_neg n2, if_neg (by simp [n3]), if_pos h]

theorem lineStepV_eq_ft {v2 lines i line}
    (n1 : begins pfxID line = false)
    (n2 : ¬(begins pfxSQ line = true ∧ i + 1 < lines.length))
    (n3 : begins pfxDE line = false)
    (n4 : begins pfxSUPFAM line = false)
    (h : begins pfxFT line = true) :
    lineStepV v2 lines i line =
      match (if 3 ≤ (pySplitWs line).length then
              match pyInt? ((pySplitWs line).getD 2 []) with
              | none => Except.error ParseErr.valueError
              | some n => Except.ok (fun r => setField r "Length" (Value.int n))
            else Except.ok id) with
      | Except.error e => Except.error e
      | Except.ok f =>
        if (pySplit sepSemi line).tail ≠ [] then
          Except.ok (fun r => setField (f r) "PTMs"
            (Value.strList (((pySplit sepSemi line).tail).map pyStrip)))
        else Except.ok f := by
  unfold lineStepV
  rw [if_neg (by simp [n1]), if_neg n2, if_neg (by simp [n3]), if_neg (by simp [n4]), if_pos h]

theorem lineStepV_eq_cc {v2 lines i line}
    (n1 : begins pfxID line = false)
    (n2 : ¬(begins pfxSQ line = true ∧ i + 1 < lines.length))
    (n3 : begins pfxDE line = false)
    (n4 : begins pfxSUPFAM line = false)
    (n5 : begins pfxFT line = false)
    (h : begins pfxCC line = true) :
    lineStepV v2 lines i line =
      match (pySplit pfxCC line).get? 1 with
      | none => Except.error ParseErr.indexError
      | some s => Except.ok (fun r => setField r "Subcellular Location" (Value.str (pyStrip s))) := by
  unfold lineStepV
  rw [if_neg (by simp [n1]), if_neg n2, if_neg (by simp [n3]), if_neg (by simp [n4]),
    if_neg (by simp [n5]), if_pos h]

theorem lineStepV_eq_reactome {v2 lines i line}
    (n1 : begins pfxID line = false)
    (n2 : ¬(begins pfxSQ line = true ∧ i + 1 < lines.length))
    (n3 : begins pfxDE line = false)
    (n4 : begins pfxSUPFAM line = false)
    (n5 : begins pfxFT line = false)
    (n6 : begins pfxCC line = false)
    (h : begins pfxReactome line = true) :
    lineStepV v2 lines i line =
      match (pySplit sepSemi line).get? 1 with
      | none => Except.error ParseErr.indexError
      | some s => Except.ok (fun r => setField r "Pathway" (Value.str s)) := by
  unfold lineStepV
  rw [if_neg (by simp [n1]), if_neg n2, if_neg (by simp [n3]), if_neg (by simp [n4]),
    if_neg (by simp [n5]), if_neg (by simp [n6]), if_pos h]

theorem lineStepV_eq_mim {v2 lines i line}
    (n1 : begins pfxID line = false)
    (n2 : ¬(begins pfxSQ line = true ∧ i + 1 < lines.length))
    (n3 : begins pfxDE line = false)
    (n4 : begins pfxSUPFAM line = false)
    (n5 : begins pfxFT line = false)
    (n6 : begins pfxCC line = false)
    (n7 : begins pfxReactome line = false)
    (h : begins pfxMIM line = true) :
    lineStepV v2 lines i line =
      match (pySplit sepSemi line).get? 1 with
      | none => Except.error ParseErr.indexError
      | some s => Except.ok (fun r => setField r "Disease" (Value.str s)) := by
  unfold lineStepV
  rw [if_neg (by simp [n1]), if_neg n2, if_neg (by simp [n3]), if_neg (by simp [n4]),
    if_neg (by simp [n5]), if_neg (by simp [n6]), if_neg (by simp [n7]), if_pos h]

theorem lineStepV_eq_pdb {v2 lines i line}
    (n1 : begins pfxID line = false)
    (n2 : ¬(begins pfxSQ line = true ∧ i + 1 < lines.length))
    (n3 : begins pfxDE line = false)
    (n4 : begins pfxSUPFAM line = false)
    (n5 : begins pfxFT line = false)
    (n6 : begins pfxCC line = false)
    (n7 : begins pfxReactome line = false)
    (n8 : begins pfxMIM line = false)
    (hv : v2 = true)
    (h : begins pfxPDB line = true) :
    lineStepV v2 lines i line =
      match (pySplit sepSemi line).get? 1 with
      | none => Except.error ParseErr.indexError
      | some s => Except.ok (fun r => setField r "PDB_ID" (Value.str (pyStrip s))) := by
  unfold lineStepV
  rw [if_neg (by simp [n1]), if_neg n2, if_neg (by simp [n3]), if_neg (by simp [n4]),
    if_neg (by simp [n5]), if_neg (by simp [n6]), if_neg (by simp [n7]), if_neg (by simp [n8]),
    if_pos ⟨hv, h⟩]

theorem lineStepV_eq_afdb {v2 lines i line}
    (n1 : begins pfxID line = false)
    (n2 : ¬(begins pfxSQ line = true ∧ i + 1 < lines.length))
    (n3 : begins pfxDE line = false)
    (n4 : begins pfxSUPFAM line = false)
    (n5 : begins pfxFT line = false)
    (n6 : begins pfxCC line = false)
    (n7 : begins pfxReactome line = false)
    (n8 : begins pfxMIM line = false)
    (n9 : ¬(v2 = true ∧ begins pfxPDB line = true))
    (hv : v2 = true)
    (h : begins pfxAFDB line = true) :
    lineStepV v2 lines i line =
      match (pySplit sepSemi line).get? 1 with
      | none => Except.error ParseErr.indexError
      | some s => Except.ok (fun r => setField r "AlphaFold_ID" (Value.str (pyStrip s))) := by
  unfold lineStepV
  rw [if_neg (by simp [n1]), if_neg n2, if_neg (by simp [n3]), if_neg (by simp [n4]),
    if_neg (by simp [n5]), if_neg (by simp [n6]), if_neg (by simp [n7]), if_neg (by simp [n8]),
    if_neg n9, if_pos ⟨hv, h⟩]

theorem lineStepV_eq_none {v2 lines i line}
    (n1 : begins pfxID line = false)
    (n2 : ¬(begins pfxSQ line = true ∧ i + 1 < lines.length))
    (n3 : begins pfxDE line = false)
    (n4 : begins pfxSUPFAM line = false)
    (n5 : begins pfxFT line = false)
    (n6 : begins pfxCC line = false)
    (n7 : begins pfxReactome line = false)
    (n8 : begins pfxMIM line = false)
    (n9 : ¬(v2 = true ∧ begins pfxPDB line = true))
    (n10 : ¬(v2 = true ∧ begins pfxAFDB line = true)) :
    lineStepV v2 lines i line = Except.ok id := by
  unfold lineStepV
  rw [if_neg (by simp [n1]), if_neg n2, if_neg (by simp [n3]), if_neg (by simp [n4]),
    if_neg (by simp [n5]), if_neg (by simp [n6]), if_neg (by simp [n7]), if_neg (by simp [n8]),
    if_neg n9, if_neg n10]

/-- `mayTouch v2 line k`: the branch that `line` selects is allowed to store
key `k` — i.e. `k` is the field whose trigger prefix is matched by `line`
(the `FT   MOD_RES` branch may store both `Length` and `PTMs`). -/
def mayTouch (v2 : Bool) (line : Line) (k : String) : Prop :=
  (k = "Name" ∧ begins pfxID line = true) ∨
  (k = "Weight" ∧ begins pfxSQ line = true) ∨
  (k = "Function" ∧ begins pfxDE line = true) ∨
  (k = "Structure" ∧ begins pfxSUPFAM line = true) ∨
  ((k = "Length" ∨ k = "PTMs") ∧ begins pfxFT line = true) ∨
  (k = "Subcellular Location" ∧ begins pfxCC line = true) ∨
  (k = "Pathway" ∧ begins pfxReactome line = true) ∨
  (k = "Disease" ∧ begins pfxMIM line = true) ∨
  (v2 = true ∧ k = "PDB_ID" ∧ begins pfxPDB line = true) ∨
  (v2 = true ∧ k = "AlphaFold_ID" ∧ begins pfxAFDB line = true)

/-- A successful iteration leaves every key it is not allowed to touch
unchanged. -/
theorem lineStepV_preserve {v2 : Bool} {lines : List Line} {i : Nat} {line : Line}
    {f : Record → Record}
    (h : lineStepV v2 lines i line = Except.ok f)
    {k : String} (hk : ¬ mayTouch v2 line k) (r : Record) :
    getVal (f r) k = getVal r k := by
  by_cases c1 : begins pfxID line = true
  · rw [lineStepV_eq_id c1] at h
    injection h with hf; subst hf
    exact getVal_setField_ne r _ (by rintro rfl; exact hk (by simp [mayTouch, c1]))
  have n1 : begins pfxID line = false := by simpa using c1
  by_cases c2 : begins pfxSQ line = true ∧ i + 1 < lines.length
  · rw [lineStepV_eq_sq n1 c2.1 c2.2] at h
    cases hl : (pySplitWs (lines.getD (i + 1) [])).getLast? with
    | none => rw [hl] at h; exact absurd h (by simp)
    | some w =>
      rw [hl] at h; injection h with hf; subst hf
      exact getVal_setField_ne r _ (by rintro rfl; exact hk (by simp [mayTouch, c2.1]))
  by_cases c3 : begins pfxDE line = true
  · rw [lineStepV_eq_de n1 c2 c3] at h
    cases hl : (pySplit sepFull line).get? 1 with
    | none => rw [hl] at h; exact absurd h (by simp)
    | some a =>
      rw [hl] at h; injection h with hf; subst hf
      exact getVal_setField_ne r _ (by rintro rfl; exact hk (by simp [mayTouch, c3]))
  have n3 : begins pfxDE line = false := by simpa using c3
  by_cases c4 : begins pfxSUPFAM line = true
  · rw [lineStepV_eq_supfam n1 c2 n3 c4] at h
    cases hl : (pySplit sepSemi line).get? 1 with
    | none => rw [hl] at h; exact absurd h (by simp)
    | some s =>
      rw [hl] at h; injection h with hf; subst hf
      exact getVal_setField_ne r _ (by rintro rfl; exact hk (by simp [mayTouch, c4]))
  have n4 : begins pfxSUPFAM line = false := by simpa using c4
  by_cases c5 : begins pfxFT line = true
  · rw [lineStepV_eq_ft n1 c2 n3 n4 c5] at h
    have hkL : ("Length" : String) ≠ k := by
      rintro rfl; exact hk (by simp [mayTouch, c5])
    have hkP : ("PTMs" : String) ≠ k := by
      rintro rfl; exact hk (by simp [mayTouch, c5])
    by_cases hlen : 3 ≤ (pySplitWs line).length
    · rw [if_pos hlen] at h
      cases hint : pyInt? ((pySplitWs line).getD 2 []) with
      | none => rw [hint] at h; exact absurd h (by simp)
      | some n =>
        rw [hint] at h
        simp only [] at h
        by_cases hptm : (pySplit sepSemi line).tail ≠ []
        · rw [if_pos hptm] at h; injection h with hf; subst hf
          show getVal (setField (setField r "Length" (Value.int n)) "PTMs" _) k = getVal r k
          rw [getVal_setField_ne _ _ hkP, getVal_setField_ne _ _ hkL]
        · rw [if_neg hptm] at h; injection h with hf; subst hf
          exact getVal_setField_ne r _ hkL
    · rw [if_neg hlen] at h
      simp only [] at h
      by_cases hptm : (pySplit sepSemi line).tail ≠ []
      · rw [if_pos hptm] at h; injection h with hf; subst hf
        exact getVal_setField_ne r _ hkP
      · rw [if_neg hptm] at h; injection h with hf; subst hf
        rfl
  have n5 : begins pfxFT line = false := by simpa using c5
  by_cases c6 : begins pfxCC line = true
  · rw [lineStepV_eq_cc n1 c2 n3 n4 n5 c6] at h
    cases hl : (pySplit pfxCC line).get? 1 with
    | none => rw [hl] at h; exact absurd h (by simp)
    | some s =>
      rw [hl] at h; injection h with hf; subst hf
      exact getVal_setField_ne r _ (by rintro rfl; exact hk (by simp [mayTouch, c6]))
  have n6 : begins pfxCC line = false := by simpa using c6
  by_cases c7 : begins pfxReactome line = true
  · rw [lineStepV_eq_reactome n1 c2 n3 n4 n5 n6 c7] at h
    cases hl : (pySplit sepSemi line).get? 1 with
    | none => rw [hl] at h; exact absurd h (by simp)
    | some s =>
      rw [hl] at h; injection h with hf; subst hf
      exact getVal_setField_ne r _ (by rintro rfl; exact hk (by simp [mayTouch, c7]))
  have n7 : begins pfxReactome line = false := by simpa using c7
  by_cases c8 : begins pfxMIM line = true
  · rw [lineStepV_eq_mim n1 c2 n3 n4 n5 n6 n7 c8] at h
    cases hl : (pySplit sepSemi line).get? 1 with
    | none => rw [hl] at h; exact absurd h (by simp)
    | some s =>
      rw [hl] at h; injection h with hf; subst hf
      exact getVal_setField_ne r _ (by rintro rfl; exact hk (by simp [mayTouch, c8]))
  have n8 : begins pfxMIM line = false := by simpa using c8
  by_cases c9 : v2 = true ∧ begins pfxPDB line = true
  · rw [lineStepV_eq_pdb n1 c2 n3 n4 n5 n6 n7 n8 c9.1 c9.2] at h
    cases hl : (pySplit sepSemi line).get? 1 with
    | none => rw [hl] at h; exact absurd h (by simp)
    | some s =>
      rw [hl] at h; injection h with hf; subst hf
      exact getVal_setField_ne r _
        (by rintro rfl; exact hk (by simp [mayTouch, c9.1, c9.2]))
  by_cases c10 : v2 = true ∧ begins pfxAFDB line = true
  · rw [lineStepV_eq_afdb n1 c2 n3 n4 n5 n6 n7 n8 c9 c10.1 c10.2] at h
    cases hl : (pySplit sepSemi line).get? 1 with
    | none => rw [hl] at h; exact absurd h (by simp)
    | some s =>
      rw [hl] at h; injection h with hf; subst hf
      exact getVal_setField_ne r _
        (by rintro rfl; exact hk (by simp [mayTouch, c10.1, c10.2]))
  rw [lineStepV_eq_none n1 c2 n3 n4 n5 n6 n7 n8 c9 c10] at h
  injection h with hf; subst hf
  rfl

/-- Run-level preservation: if no remaining line may touch key `k`, the
final value of `k` is its initial value. -/
theorem runFromV_preserve {v2 : Bool} {lines : List Line} {k : String} :
    ∀ {rest : List Line} {i : Nat} {r0 r : Record},
      (∀ l ∈ rest, ¬ mayTouch v2 l k) →
      runFromV v2 lines i rest r0 = Except.ok r →
      getVal r k = getVal r0 k := by
  intro rest
  induction rest with
  | nil =>
    intro i r0 r _ h
    simp only [runFromV] at h
    cases h; rfl
  | cons line rest ih =>
    intro i r0 r hall h
    simp only [runFromV] at h
    cases hs : lineStepV v2 lines i line with
    | error e => simp only [hs] at h; simp at h
    | ok f =>
      simp only [hs] at h
      have h1 := ih (fun l hl => hall l (List.mem_cons_of_mem _ hl)) h
      rw [h1, lineStepV_preserve hs (hall line (List.mem_cons_self _ _)) r0]

/-- Run-level key origin: any key with a value in the final record either had
a value initially or was touched by some line of the whole input. -/
theorem runFromV_keys {v2 : Bool} {lines : List Line} :
    ∀ {rest : List Line} {i : Nat} {r0 r : Record},
      (∀ l ∈ rest, l ∈ lines) →
      runFromV v2 lines i rest r0 = Except.ok r →
      ∀ k, (getVal r k).isSome = true →
        (getVal r0 k).isSome = true ∨ ∃ l ∈ lines, mayTouch v2 l k := by
  intro rest
  induction rest with
  | nil =>
    intro i r0 r _ h k hk
    simp only [runFromV] at h
    cases h; exact Or.inl hk
  | cons line rest ih =>
    intro i r0 r hsub h k hk
    simp only [runFromV] at h
    cases hs : lineStepV v2 lines i line with
    | error e => simp only [hs] at h; simp at h
    | ok f =>
      simp only [hs] at h
      rcases ih (fun l hl => hsub l (List.mem_cons_of_mem _ hl)) h k hk with h1 | h1
      · by_cases hmt : mayTouch v2 line k
        · exact Or.inr ⟨line, hsub line (List.mem_cons_self _ _), hmt⟩
        · rw [lineStepV_preserve hs hmt r0] at h1
          exact Or.inl h1
      · exact Or.inr h1

/-! ### Key-specific corollaries of `mayTouch` -/

theorem mayTouch_id (v2 : Bool) (l : Line) : ¬ mayTouch v2 l "ID" := by
  simp [mayTouch]

theorem mayTouch_name (v2 : Bool) (l : Line) :
    mayTouch v2 l "Name" ↔ begins pfxID l = true := by simp [mayTouch]

theorem mayTouch_weight (v2 : Bool) (l : Line) :
    mayTouch v2 l "Weight" ↔ begins pfxSQ l = true := by simp [mayTouch]

theorem mayTouch_length (v2 : Bool) (l : Line) :
    mayTouch v2 l "Length" ↔ begins pfxFT l = true := by simp [mayTouch]

theorem mayTouch_ptms (v2 : Bool) (l : Line) :
    mayTouch v2 l "PTMs" ↔ begins pfxFT l = true := by simp [mayTouch]

/-! ### Claim C3 -/

/-- `matchesNone line`: the line matches none of the recognized line-prefix
triggers of the `ASG01.py` extractor. -/
def matchesNone (line : Line) : Prop :=
  begins pfxID line = false ∧ begins pfxSQ line = false ∧
  begins pfxDE line = false ∧ begins pfxSUPFAM line = false ∧
  begins pfxFT line = false ∧ begins pfxCC line = false ∧
  begins pfxReactome line = false ∧ begins pfxMIM line = false

instance : DecidablePred matchesNone := fun l => by
  unfold matchesNone
  infer_instance

theorem lineStep_of_matchesNone (lines : List Line) (i : Nat) {line : Line}
    (h : matchesNone line) : lineStepV false lines i line = Except.ok id :=
  lineStepV_eq_none h.1 (by simp [h.2.1]) h.2.2.1 h.2.2.2.1 h.2.2.2.2.1
    h.2.2.2.2.2.1 h.2.2.2.2.2.2.1 h.2.2.2.2.2.2.2 (by simp) (by simp)

theorem runFromV_matchesNone {lines : List Line} :
    ∀ {rest : List Line} {i : Nat} {r : Record},
      (∀ l ∈ rest, matchesNone l) →
      runFromV false lines i rest r = Except.ok r := by
  intro rest
  induction rest with
  | nil => intro i r _; rfl
  | cons line rest ih =>
    intro i r hall
    simp only [runFromV, lineStep_of_matchesNone lines i (hall line (List.mem_cons_self _ _))]
    exact ih (fun l hl => hall l (List.mem_cons_of_mem _ hl))

/-- Claim C3: for every caller-supplied identifier and every input line
sequence in which no line matches any recognized prefix, `get_protein_data`
returns a record whose only key is `ID`, mapped to the caller-supplied
identifier string. -/
theorem claim_C3_no_match_yields_id_only (uid : Line) (lines : List Line)
    (h : ∀ l ∈ lines, matchesNone l) :
    get_protein_data uid lines = Except.ok [("ID", Value.str uid)] := by
  unfold get_protein_data
  exact runFromV_matchesNone h

/-- Witness for claim C3 at a concrete input. -/
theorem claim_C3_witness :
    get_protein_data "P69905".toList ["XX hello".toList, "".toList] =
      Except.ok [("ID", Value.str "P69905".toList)] :=
  claim_C3_no_match_yields_id_only _ _ (by decide)

/-! ### Claim C4 -/

/-- Claim C4: every successful extraction contains the `ID` key (mapped to the
caller-supplied identifier), and contains any other key only if some input
line triggered that field's extraction rule (`mayTouch`); absent fields are
absent keys. -/
theorem claim_C4_keys_require_trigger (uid : Line) (lines : List Line) (r : Record)
    (h : get_protein_data uid lines = Except.ok r) :
    getVal r "ID" = some (Value.str uid) ∧
    ∀ k, (getVal r k).isSome = true →
      k = "ID" ∨ ∃ l ∈ lines, mayTouch false l k := by
  unfold get_protein_data at h
  constructor
  · have hpres := runFromV_preserve (k := "ID") (fun l _ => mayTouch_id false l) h
    rw [hpres]; simp [getVal]
  · intro k hk
    by_cases hkid : k = "ID"
    · exact Or.inl hkid
    · rcases runFromV_keys (fun l hl => hl) h k hk with h1 | h1
      · exfalso
        simp [getVal, Ne.symm hkid] at h1
      · exact Or.inr h1

/-- Witness for claim C4 at a concrete input. -/
theorem claim_C4_witness :
    getVal [("ID", Value.str "X".toList), ("Disease", Value.str " 140700".toList)] "ID" =
      some (Value.str "X".toList) :=
  (claim_C4_keys_require_trigger "X".toList ["DR   MIM; 140700; gene.".toList] _ (by rfl)).1

/-! ### Claim C1 -/

/-- Claim C1: a line that matches one of the field prefixes whose extraction
indexes the second `;`-delimited field (`DR   SUPFAM`, `DR   Reactome`,
`DR   MIM`) but has no field at that position makes the whole extraction
return an error — the error propagates, no record is produced, and the field
is not silently truncated or omitted. -/
theorem claim_C1_missing_delimiter_raises (uid : Line) (pre post : List Line) (line : Line)
    (hb : begins pfxSUPFAM line = true ∨ begins pfxReactome line = true ∨
          begins pfxMIM line = true)
    (hd : (pySplit sepSemi line).get? 1 = none) :
    ∃ e, get_protein_data uid (pre ++ line :: post) = Except.error e := by
  unfold get_protein_data
  cases hpre : runFromV false (pre ++ line :: post) 0 pre [("ID", Value.str uid)] with
  | error e => exact ⟨e, runFromV_append_error _ hpre⟩
  | ok r1 =>
    have hstep : lineStepV false (pre ++ line :: post) (0 + pre.length) line =
        Except.error ParseErr.indexError := by
      rcases hb with h | h | h
      · rw [lineStepV_eq_supfam
          (begins_discrim pfxID h (by decide) (by decide))
          (by simp [begins_discrim pfxSQ h (by decide) (by decide)])
          (begins_discrim pfxDE h (by decide) (by decide)) h, hd]
      · rw [lineStepV_eq_reactome
          (begins_discrim pfxID h (by decide) (by decide))
          (by simp [begins_discrim pfxSQ h (by decide) (by decide)])
          (begins_discrim pfxDE h (by decide) (by decide))
          (begins_discrim pfxSUPFAM h (by decide) (by decide))
          (begins_discrim pfxFT h (by decide) (by decide))
          (begins_discrim pfxCC h (by decide) (by decide)) h, hd]
      · rw [lineStepV_eq_mim
          (begins_discrim pfxID h (by decide) (by decide))
          (by simp [begins_discrim pfxSQ h (by decide) (by decide)])
          (begins_discrim pfxDE h (by decide) (by decide))
          (begins_discrim pfxSUPFAM h (by decide) (by decide))
          (begins_discrim pfxFT h (by decide) (by decide))
          (begins_discrim pfxCC h (by decide) (by decide))
          (begins_discrim pfxReactome h (by decide) (by decide)) h, hd]
    rw [runFromV_append_ok _ hpre]
    exact ⟨ParseErr.indexError, by simp only [runFromV, hstep]⟩

/-- Witness for claim C1 at a concrete input. -/
theorem claim_C1_witness :
    ∃ e, get_protein_data "X".toList ["DR   SUPFAM no semicolon".toList] =
      Except.error e :=
  claim_C1_missing_delimiter_raises "X".toList [] [] _ (Or.inl (by decide)) (by decide)

/-! ### Claim C9 -/

/-- Claim C9 (implicit): an `SQ`-prefixed line whose following line exists but
yields no whitespace-delimited tokens makes the extractor raise an
out-of-bounds error (indexing `[-1]` of an empty token list) rather than omit
the `Weight` field — the end-of-input check is the only guard. -/
theorem claim_C9_empty_weight_line_raises (uid : Line) (pre post : List Line)
    (sq w : Line)
    (hsq : begins pfxSQ sq = true) (hw : pySplitWs w = []) :
    ∃ e, get_protein_data uid (pre ++ sq :: w :: post) = Except.error e := by
  unfold get_protein_data
  cases hpre : runFromV false (pre ++ sq :: w :: post) 0 pre [("ID", Value.str uid)] with
  | error e => exact ⟨e, runFromV_append_error _ hpre⟩
  | ok r1 =>
    have hg : 0 + pre.length + 1 < (pre ++ sq :: w :: post).length := by
      simp only [List.length_append, List.length_cons]
      omega
    have hstep : lineStepV false (pre ++ sq :: w :: post) (0 + pre.length) sq =
        Except.error ParseErr.indexError := by
      rw [lineStepV_eq_sq (begins_discrim pfxID hsq (by decide) (by decide)) hsq hg]
      simp only [Nat.zero_add, getD_append_middle, hw, List.getLast?_nil]
    rw [runFromV_append_ok _ hpre]
    exact ⟨ParseErr.indexError, by simp only [runFromV, hstep]⟩

/-- Witness for claim C9 at a concrete input. -/
theorem claim_C9_witness :
    ∃ e, get_protein_data "X".toList ["SQ   SEQUENCE".toList, "   ".toList] =
      Except.error e :=
  claim_C9_empty_weight_line_raises "X".toList [] [] _ _ (by decide) (by decide)

/-! ### Claim C5 -/

/-- Claim C5: for an `ID`-prefixed line (the last such line of the input), the
`Name` field equals all whitespace-delimited tokens after the first, joined
with single spaces, and equals the placeholder `Not available` when the line
has fewer than two tokens. -/
theorem claim_C5_name_join_or_placeholder (uid : Line) (pre post : List Line)
    (idLine : Line) (r : Record)
    (h : begins pfxID idLine = true)
    (hpost : ∀ l ∈ post, begins pfxID l = false)
    (hok : get_protein_data uid (pre ++ idLine :: post) = Except.ok r) :
    getVal r "Name" = some (Value.str
      (if 2 ≤ (pySplitWs idLine).length then joinSpace (pySplitWs idLine).tail
       else "Not available".toList)) := by
  unfold get_protein_data at hok
  cases hpre : runFromV false (pre ++ idLine :: post) 0 pre [("ID", Value.str uid)] with
  | error e => rw [runFromV_append_error _ hpre] at hok; exact absurd hok (by simp)
  | ok r1 =>
    rw [runFromV_append_ok _ hpre] at hok
    simp only [runFromV, lineStepV_eq_id h] at hok
    have hpres := runFromV_preserve (k := "Name")
      (fun l hl => by rw [mayTouch_name]; simp [hpost l hl]) hok
    rw [hpres, getVal_setField_self]

/-- Witness for claim C5: the specification's own example line. -/
theorem claim_C5_witness :
    getVal [("ID", Value.str "P1".toList),
            ("Name", Value.str "SOME_NAME Reviewed; 141 AA.".toList)] "Name" =
      some (Value.str "SOME_NAME Reviewed; 141 AA.".toList) :=
  (claim_C5_name_join_or_placeholder "P1".toList [] []
      "ID   SOME_NAME Reviewed; 141 AA.".toList _ (by decide) (by simp) (by rfl)).trans
    (by decide)

/-! ### Claim C2 -/

/-- Claim C2: with two or more `FT   MOD_RES` lines, the values extracted from
the last such line overwrite all earlier ones — the final `Length` is the
parsed third token of the last line and the final `PTMs` is the trimmed
`;`-suffix list of the last line. -/
theorem claim_C2_last_modres_wins (uid : Line) (pre post : List Line) (ft : Line)
    (r : Record) (n : Int)
    (hm : begins pfxFT ft = true)
    (hprev : ∃ l ∈ pre, begins pfxFT l = true)
    (hpost : ∀ l ∈ post, begins pfxFT l = false)
    (hlen : 3 ≤ (pySplitWs ft).length)
    (hn : pyInt? ((pySplitWs ft).getD 2 []) = some n)
    (hptm : (pySplit sepSemi ft).tail ≠ [])
    (hok : get_protein_data uid (pre ++ ft :: post) = Except.ok r) :
    getVal r "Length" = some (Value.int n) ∧
    getVal r "PTMs" = some (Value.strList (((pySplit sepSemi ft).tail).map pyStrip)) := by
  unfold get_protein_data at hok
  cases hpre : runFromV false (pre ++ ft :: post) 0 pre [("ID", Value.str uid)] with
  | error e => rw [runFromV_append_error _ hpre] at hok; exact absurd hok (by simp)
  | ok r1 =>
    rw [runFromV_append_ok _ hpre] at hok
    have hs : lineStepV false (pre ++ ft :: post) (0 + pre.length) ft =
        Except.ok (fun rr => setField (setField rr "Length" (Value.int n)) "PTMs"
          (Value.strList (((pySplit sepSemi ft).tail).map pyStrip))) := by
      rw [lineStepV_eq_ft
        (begins_discrim pfxID hm (by decide) (by decide))
        (by simp [begins_discrim pfxSQ hm (by decide) (by decide)])
        (begins_discrim pfxDE hm (by decide) (by decide))
        (begins_discrim pfxSUPFAM hm (by decide) (by decide)) hm,
        if_pos hlen, hn]
      simp only []
      rw [if_pos hptm]
    simp only [runFromV, hs] at hok
    constructor
    · have hpres := runFromV_preserve (k := "Length")
        (fun l hl => by rw [mayTouch_length]; simp [hpost l hl]) hok
      rw [hpres, getVal_setField_ne _ _ (by decide), getVal_setField_self]
    · have hpres := runFromV_preserve (k := "PTMs")
        (fun l hl => by rw [mayTouch_ptms]; simp [hpost l hl]) hok
      rw [hpres, getVal_setField_self]

/-- Witness for claim C2: two consecutive `FT   MOD_RES` lines; only the
second line's `Length`/`PTMs` survive. -/
theorem claim_C2_witness :
    getVal [("ID", Value.str "P1".toList), ("Length", Value.int 99),
            ("PTMs", Value.strList ["two".toList, "three".toList])] "Length" =
        some (Value.int 99) ∧
    getVal [("ID", Value.str "P1".toList), ("Length", Value.int 99),
            ("PTMs", Value.strList ["two".toList, "three".toList])] "PTMs" =
        some (Value.strList ["two".toList, "three".toList]) := by
  have h := claim_C2_last_modres_wins "P1".toList
    ["FT   MOD_RES 23 Phospho; one".toList] [] "FT   MOD_RES 99 Acetyl; two; three".toList
    _ 99 (by decide) ⟨"FT   MOD_RES 23 Phospho; one".toList, by simp, by decide⟩
    (by simp) (by decide) (by decide) (by decide) (by rfl)
  exact ⟨h.1, h.2.trans (by decide)⟩

/-! ### Claim C6 -/

theorem lineStepV_indep {v2 : Bool} {line : Line} (h : begins pfxSQ line = false)
    (L1 L2 : List Line) (i1 i2 : Nat) :
    lineStepV v2 L1 i1 line = lineStepV v2 L2 i2 line := by
  unfold lineStepV
  simp [h]

theorem runFromV_indep {v2 : Bool} (L1 L2 : List Line) :
    ∀ (rest : List Line) (i1 i2 : Nat) (r : Record),
      (∀ l ∈ rest, begins pfxSQ l = false) →
      runFromV v2 L1 i1 rest r = runFromV v2 L2 i2 rest r := by
  intro rest
  induction rest with
  | nil => intro i1 i2 r _; rfl
  | cons line rest ih =>
    intro i1 i2 r hall
    simp only [runFromV]
    rw [lineStepV_indep (hall line (List.mem_cons_self _ _)) L1 L2 i1 i2]
    cases hs : lineStepV v2 L2 i2 line with
    | error e => simp only [hs]
    | ok f =>
      simp only [hs]
      exact ih (i1 + 1) (i2 + 1) (f r) (fun l hl => hall l (List.mem_cons_of_mem _ hl))

/-- Claim C6: when the final input line starts with `SQ` (and no other line
does), the guarded lookahead makes that line a no-op — the result is the same
as without it, no error is raised by it, and no `Weight` key is produced. -/
theorem claim_C6_trailing_sq_guarded (uid : Line) (init : List Line) (last : Line)
    (h : begins pfxSQ last = true)
    (hinit : ∀ l ∈ init, begins pfxSQ l = false) :
    get_protein_data uid (init ++ [last]) = get_protein_data uid init ∧
    ∀ r, get_protein_data uid (init ++ [last]) = Except.ok r →
      getVal r "Weight" = none := by
  have heq : get_protein_data uid (init ++ [last]) = get_protein_data uid init := by
    unfold get_protein_data
    have hcong : runFromV false (init ++ [last]) 0 init [("ID", Value.str uid)] =
        runFromV false init 0 init [("ID", Value.str uid)] :=
      runFromV_indep _ _ init 0 0 _ hinit
    have hlast : ∀ r1 : Record,
        runFromV false (init ++ [last]) (0 + init.length) [last] r1 = Except.ok r1 := by
      intro r1
      have hg : ¬ (begins pfxSQ last = true ∧
          0 + init.length + 1 < (init ++ [last]).length) := by
        rintro ⟨_, hlt⟩
        simp only [List.length_append, List.length_cons, List.length_nil] at hlt
        omega
      have hstep : lineStepV false (init ++ [last]) (0 + init.length) last =
          Except.ok id :=
        lineStepV_eq_none
          (begins_discrim pfxID h (by decide) (by decide)) hg
          (begins_discrim pfxDE h (by decide) (by decide))
          (begins_discrim pfxSUPFAM h (by decide) (by decide))
          (begins_discrim pfxFT h (by decide) (by decide))
          (begins_discrim pfxCC h (by decide) (by decide))
          (begins_discrim pfxReactome h (by decide) (by decide))
          (begins_discrim pfxMIM h (by decide) (by decide))
          (by simp) (by simp)
      simp only [runFromV, hstep]
      rfl
    cases hpre : runFromV false (init ++ [last]) 0 init [("ID", Value.str uid)] with
    | error e =>
      rw [runFromV_append_error _ hpre, ← hcong, hpre]
    | ok r1 =>
      rw [runFromV_append_ok _ hpre, hlast r1, ← hcong, hpre]
  refine ⟨heq, ?_⟩
  intro r hok
  rw [heq] at hok
  unfold get_protein_data at hok
  cases hwv : getVal r "Weight" with
  | none => rfl
  | some v =>
    exfalso
    rcases runFromV_keys (fun l hl => hl) hok "Weight" (by rw [hwv]; rfl) with h1 | h1
    · simp [getVal] at h1
    · rcases h1 with ⟨l, hl, hmt⟩
      rw [mayTouch_weight] at hmt
      exact absurd hmt (by simp [hinit l hl])

/-- Witness for claim C6 at a concrete input. -/
theorem claim_C6_witness :
    get_protein_data "P1".toList
        (["DE   RecName: Full=Hemoglobin subunit alpha;".toList] ++
          ["SQ   SEQUENCE   141 AA;".toList]) =
      get_protein_data "P1".toList
        ["DE   RecName: Full=Hemoglobin subunit alpha;".toList] ∧
    getVal [("ID", Value.str "P1".toList),
            ("Function", Value.str "Hemoglobin subunit alpha".toList)] "Weight" = none := by
  have h := claim_C6_trailing_sq_guarded "P1".toList
    ["DE   RecName: Full=Hemoglobin subunit alpha;".toList]
    "SQ   SEQUENCE   141 AA;".toList (by decide) (by decide)
  exact ⟨h.1, h.2 _ (by rfl)⟩

/-! ### The `app.py` UI cycle

The Streamlit calls are embedded as an emitted event list; the HTTP
responses are inputs.  `main` of `app.py` performs, per trigger: record
fetch + parse, characteristics display, PPI fetch + display, structure
display.  An uncaught parse exception aborts the cycle (`Except.error`). -/

/-- One user-visible output of a trigger cycle. -/
inductive Event where
  | errMsg (m : String)
  | warnMsg (m : String)
  | showCharacteristics (r : Record)
  | showNetwork (edges : List (Line × Line))
  | showStructPdb (v : Value)
  | showStructAf (v : Value)
deriving DecidableEq

/-- An HTTP response whose body is used as text lines (`splitlines()`). -/
structure HttpResp where
  status : Int
  bodyLines : List Line
deriving DecidableEq

/-- `get_protein_data` of `app.py` including the HTTP status gate: on a
non-200 status it shows an error and returns the empty dict. -/
def get_protein_data_http2 (uid : Line) (resp : HttpResp) :
    List Event × Except ParseErr Record :=
  if resp.status ≠ 200 then
    ([Event.errMsg "Invalid UniProt ID or unable to fetch data."], Except.ok [])
  else
    ([], get_protein_data2 uid resp.bodyLines)

/-- One entry of the STRING-DB JSON array; the two named-entity fields may be
missing (`entry.get` returns `None`) or empty. -/
structure PPIEntry where
  preferredName_A : Option Line
  preferredName_B : Option Line
deriving DecidableEq

/-- The loop body of `get_ppi_network` in `app.py`: keep an edge only when
both names are truthy (present and non-empty). -/
def ppiEdge? (e : PPIEntry) : Option (Line × Line) :=
  match e.preferredName_A, e.preferredName_B with
  | some a, some b => if a ≠ [] ∧ b ≠ [] then some (a, b) else none
  | _, _ => none

/-- `get_ppi_network` of `app.py`, after the HTTP status gate: collect the
edges of the JSON entries in order. -/
def get_ppi_network (entries : List PPIEntry) : List (Line × Line) :=
  entries.filterMap ppiEdge?

/-- A STRING-DB response: HTTP status and parsed JSON entries. -/
structure PPIResp where
  status : Int
  entries : List PPIEntry
deriving DecidableEq

/-- `get_ppi_network` of `app.py` including the HTTP status gate. -/
def get_ppi_network_http (resp : PPIResp) : List Event × List (Line × Line) :=
  if resp.status ≠ 200 then
    ([Event.errMsg "Failed to fetch PPI data from STRING DB."], [])
  else
    ([], get_ppi_network resp.entries)

/-- `display_ppi_network` of `app.py`: warn when there are no interactions,
otherwise render the graph. -/
def display_ppi_network (edges : List (Line × Line)) : List Event :=
  if edges = [] then [Event.warnMsg "No interactions found for this protein in STRING DB."]
  else [Event.showNetwork edges]

/-- Python truthiness of a stored value (`if pdb_id:`). -/
def truthy : Value → Bool
  | Value.str s => s ≠ []
  | Value.int n => n ≠ 0
  | Value.strList l => l ≠ []

/-- Python truthiness of `d.get(k)` (absent key gives `None`, which is falsy). -/
def truthyO : Option Value → Bool
  | none => false
  | some v => truthy v

/-- `display_structure` of `app.py`: prefer the PDB structure when
`protein_data.get("PDB_ID")` is truthy, else the AlphaFold structure when
`protein_data.get("AlphaFold_ID")` is truthy, else warn and render nothing. -/
def display_structure (r : Record) : List Event :=
  if truthyO (getVal r "PDB_ID") then
    [Event.showStructPdb ((getVal r "PDB_ID").getD (Value.str []))]
  else if truthyO (getVal r "AlphaFold_ID") then
    [Event.showStructAf ((getVal r "AlphaFold_ID").getD (Value.str []))]
  else
    [Event.warnMsg "No PDB or AlphaFold structure available for this protein."]

/-- One trigger cycle of `main` in `app.py`, given the identifier typed by the
user and the two HTTP responses the cycle would receive.  An empty identifier
is falsy, so nothing happens; an empty parsed record is falsy, so only the
fetch-error message is shown; otherwise the characteristics, the interaction
network and the 3D structure are displayed in order. -/
def mainCycle2 (uid : Line) (recResp : HttpResp) (ppiResp : PPIResp) :
    Except ParseErr (List Event) :=
  if uid = [] then Except.ok []
  else
    match get_protein_data_http2 uid recResp with
    | (_, Except.error e) => Except.error e
    | (ev1, Except.ok pd) =>
      if pd = [] then Except.ok ev1
      else
        let ppi := get_ppi_network_http ppiResp
        Except.ok (ev1 ++ [Event.showCharacteristics pd] ++ ppi.1 ++
          display_ppi_network ppi.2 ++ display_structure pd)

/-! ### Claim C7 -/

/-- Claim C7: on a non-success record-fetch status, the cycle surfaces exactly
the user-visible error, `get_protein_data` returns the empty record, and no
further output is produced — no characteristics, no network, no structure. -/
theorem claim_C7_fetch_failure_halts_cycle (uid : Line) (recResp : HttpResp)
    (ppiResp : PPIResp)
    (hu : uid ≠ []) (hs : recResp.status ≠ 200) :
    mainCycle2 uid recResp ppiResp =
      Except.ok [Event.errMsg "Invalid UniProt ID or unable to fetch data."] ∧
    (get_protein_data_http2 uid recResp).2 = Except.ok [] := by
  constructor
  · simp [mainCycle2, get_protein_data_http2, hu, hs]
  · simp [get_protein_data_http2, hs]

/-- Witness for claim C7 at a concrete input. -/
theorem claim_C7_witness :
    mainCycle2 "P69905".toList ⟨404, []⟩ ⟨200, []⟩ =
      Except.ok [Event.errMsg "Invalid UniProt ID or unable to fetch data."] ∧
    (get_protein_data_http2 "P69905".toList ⟨404, []⟩).2 = Except.ok [] :=
  claim_C7_fetch_failure_halts_cycle "P69905".toList ⟨404, []⟩ ⟨200, []⟩
    (by decide) (by decide)

/-! ### Claim C10 -/

/-- Claim C10 (implicit): `get_ppi_network` returns an edge exactly for the
entries whose two named-entity fields are both present and non-empty; in
particular every returned edge consists of two non-empty names. -/
theorem claim_C10_edges_have_nonempty_names (entries : List PPIEntry)
    (e : Line × Line) :
    e ∈ get_ppi_network entries ↔
      ∃ en ∈ entries, en.preferredName_A = some e.1 ∧ en.preferredName_B = some e.2 ∧
        e.1 ≠ [] ∧ e.2 ≠ [] := by
  unfold get_ppi_network
  rw [List.mem_filterMap]
  constructor
  · rintro ⟨en, hen, hdef⟩
    refine ⟨en, hen, ?_⟩
    unfold ppiEdge? at hdef
    cases ha : en.preferredName_A with
    | none => rw [ha] at hdef; simp at hdef
    | some a =>
      cases hb : en.preferredName_B with
      | none => rw [ha, hb] at hdef; simp at hdef
      | some b =>
        rw [ha, hb] at hdef
        simp at hdef
        obtain ⟨⟨h1, h2⟩, rfl⟩ := hdef
        exact ⟨rfl, rfl, h1, h2⟩
  · rintro ⟨en, hen, ha, hb, h1, h2⟩
    refine ⟨en, hen, ?_⟩
    unfold ppiEdge?
    rw [ha, hb]
    simp [h1, h2]

/-- Witness for claim C10 at a concrete entry list. -/
theorem claim_C10_witness :
    ("A".toList, "B".toList) ∈
      get_ppi_network [⟨some "A".toList, some "B".toList⟩, ⟨none, some "C".toList⟩] :=
  (claim_C10_edges_have_nonempty_names _ _).mpr
    ⟨⟨some "A".toList, some "B".toList⟩, by simp, rfl, rfl, by decide, by decide⟩

/-! ### Claim C8 -/

/-- Counterexample to claim C8 as stated: a record reachable from the second
variant's extractor (input lines `DR   PDB;;` and `DR   AlphaFoldDB; P69905; -.`)
contains the `PDB_ID` key (with an empty value) and an `AlphaFold_ID`, yet
`display_structure` selects the AlphaFold endpoint, not the PDB endpoint —
selection tests Python truthiness, not key presence. -/
theorem claim_C8_counterexample :
    get_protein_data2 "P69905".toList
        ["DR   PDB;;".toList, "DR   AlphaFoldDB; P69905; -.".toList] =
      Except.ok [("ID", Value.str "P69905".toList), ("PDB_ID", Value.str []),
                 ("AlphaFold_ID", Value.str "P69905".toList)] ∧
    (getVal [("ID", Value.str "P69905".toList), ("PDB_ID", Value.str []),
             ("AlphaFold_ID", Value.str "P69905".toList)] "PDB_ID").isSome = true ∧
    display_structure [("ID", Value.str "P69905".toList), ("PDB_ID", Value.str []),
                       ("AlphaFold_ID", Value.str "P69905".toList)] =
      [Event.showStructAf (Value.str "P69905".toList)] :=
  ⟨by rfl, by decide, by decide⟩

/-- Claim C8 (amended): the structure fetch selects its endpoint by truthiness
precedence — the PDB endpoint whenever the record's `PDB_ID` value is present
and non-empty (even when an `AlphaFold_ID` is present), the AlphaFold endpoint
only when `PDB_ID` is absent or empty and `AlphaFold_ID` is present and
non-empty, and a user-visible warning with no rendering when both are absent
or empty. -/
theorem claim_C8_amended_truthy_precedence (r : Record) :
    (truthyO (getVal r "PDB_ID") = true →
      display_structure r =
        [Event.showStructPdb ((getVal r "PDB_ID").getD (Value.str []))]) ∧
    (truthyO (getVal r "PDB_ID") = false → truthyO (getVal r "AlphaFold_ID") = true →
      display_structure r =
        [Event.showStructAf ((getVal r "AlphaFold_ID").getD (Value.str []))]) ∧
    (truthyO (getVal r "PDB_ID") = false → truthyO (getVal r "AlphaFold_ID") = false →
      display_structure r =
        [Event.warnMsg "No PDB or AlphaFold structure available for this protein."]) := by
  unfold display_structure
  refine ⟨?_, ?_, ?_⟩
  · intro h1; rw [if_pos h1]
  · intro h1 h2; rw [if_neg (by simp [h1]), if_pos h2]
  · intro h1 h2; rw [if_neg (by simp [h1]), if_neg (by simp [h2])]

/-- Witness for the amended claim C8 on three concrete records. -/
theorem claim_C8_amended_witness :
    display_structure [("PDB_ID", Value.str "1ABC".toList),
                       ("AlphaFold_ID", Value.str "P69905".toList)] =
      [Event.showStructPdb (Value.str "1ABC".toList)] ∧
    display_structure [("AlphaFold_ID", Value.str "P69905".toList)] =
      [Event.showStructAf (Value.str "P69905".toList)] ∧
    display_structure [("ID", Value.str "X".toList)] =
      [Event.warnMsg "No PDB or AlphaFold structure available for this protein."] := by
  refine ⟨?_, ?_, ?_⟩
  · exact ((claim_C8_amended_truthy_precedence _).1 (by decide)).trans (by decide)
  · exact (((claim_C8_amended_truthy_precedence _).2.1) (by decide) (by decide)).trans (by decide)
  · exact ((claim_C8_amended_truthy_precedence _).2.2) (by decide) (by decide)

end ProteinAnalyzer
